import Mathlib

/-!
Verification of the depth-to-point-cloud reconstruction kernel of
`depth2Cloud.py` (functions `write_point_cloud`,
`adjust_intrinsics_for_resolution`, `depth_image_to_point_cloud`).
Machine floating point is embedded as exact rational arithmetic; images are
lists of rows; the numpy array store is modelled explicitly where in-place
mutation matters.
-/

/-- The 3x3 intrinsic matrix type (numpy float array, embedded over ℚ). -/
abbrev Mat3 := Matrix (Fin 3) (Fin 3) ℚ

/-- The 4x4 pose matrix type (numpy float array, embedded over ℚ). -/
abbrev Mat4 := Matrix (Fin 4) (Fin 4) ℚ

/-- One stored RGB sample in source channel order: channel 0 is blue,
channel 1 is green, channel 2 is red, each an 8-bit value
(`rgb[:, :, 0]`, `rgb[:, :, 1]`, `rgb[:, :, 2]` at lines 99-101). -/
structure Pixel where
  c0 : Fin 256
  c1 : Fin 256
  c2 : Fin 256
deriving DecidableEq

/-- One output point, mirroring the row `[X, Y, Z, R, G, B]` assembled at
line 103 of `depth2Cloud.py`: position first, then color in red, green,
blue order. -/
structure Point where
  x : ℚ
  y : ℚ
  z : ℚ
  r : Fin 256
  g : Fin 256
  b : Fin 256
deriving DecidableEq

/-- The effect of the numpy statement `M[i, j] = v` on a 3x3 array value. -/
def msetEntry (M : Mat3) (i j : Fin 3) (v : ℚ) : Mat3 :=
  Matrix.of fun i' j' => if i' = i ∧ j' = j then v else M i' j'

/-- The effect of the numpy statement `M[i, j] *= c` (lines 44-47). -/
def mscaleEntry (M : Mat3) (i j : Fin 3) (c : ℚ) : Mat3 :=
  msetEntry M i j (M i j * c)

/-- `adjust_intrinsics_for_resolution` (depth2Cloud.py lines 30-49).
Sizes are (height, width) pairs; the result is a copy of `K_original`
whose fx and cx entries are scaled by the width ratio and whose fy and cy
entries are scaled by the height ratio, applied as the source's four
in-place updates on the copy. -/
def adjust_intrinsics_for_resolution (K_original : Mat3)
    (original_size target_size : ℕ × ℕ) : Mat3 :=
  let scale_x : ℚ := (target_size.2 : ℚ) / (original_size.2 : ℚ)
  let scale_y : ℚ := (target_size.1 : ℚ) / (original_size.1 : ℚ)
  mscaleEntry (mscaleEntry (mscaleEntry (mscaleEntry K_original 0 0 scale_x)
    1 1 scale_y) 0 2 scale_x) 1 2 scale_y

theorem adjust_intrinsics_apply (K : Mat3) (o t : ℕ × ℕ) (i j : Fin 3) :
    adjust_intrinsics_for_resolution K o t i j =
      if i = 0 ∧ j = 0 then K 0 0 * ((t.2 : ℚ) / (o.2 : ℚ))
      else if i = 1 ∧ j = 1 then K 1 1 * ((t.1 : ℚ) / (o.1 : ℚ))
      else if i = 0 ∧ j = 2 then K 0 2 * ((t.2 : ℚ) / (o.2 : ℚ))
      else if i = 1 ∧ j = 2 then K 1 2 * ((t.1 : ℚ) / (o.1 : ℚ))
      else K i j := by
  fin_cases i <;> fin_cases j <;>
    simp [adjust_intrinsics_for_resolution, mscaleEntry, msetEntry,
      Matrix.of_apply, Fin.ext_iff]

/-- Claim C4: adjust_intrinsics_for_resolution, given K at resolution
(H0, W0) and target (H1, W1), scales fx and cx by W1/W0, fy and cy by
H1/H0, and copies every other entry unchanged. -/
theorem adjust_intrinsics_entries (K : Mat3) (H0 W0 H1 W1 : ℕ) :
    adjust_intrinsics_for_resolution K (H0, W0) (H1, W1) 0 0
        = K 0 0 * ((W1 : ℚ) / (W0 : ℚ)) ∧
    adjust_intrinsics_for_resolution K (H0, W0) (H1, W1) 1 1
        = K 1 1 * ((H1 : ℚ) / (H0 : ℚ)) ∧
    adjust_intrinsics_for_resolution K (H0, W0) (H1, W1) 0 2
        = K 0 2 * ((W1 : ℚ) / (W0 : ℚ)) ∧
    adjust_intrinsics_for_resolution K (H0, W0) (H1, W1) 1 2
        = K 1 2 * ((H1 : ℚ) / (H0 : ℚ)) ∧
    ∀ i j : Fin 3, ¬(i = 0 ∧ j = 0) → ¬(i = 1 ∧ j = 1) →
      ¬(i = 0 ∧ j = 2) → ¬(i = 1 ∧ j = 2) →
      adjust_intrinsics_for_resolution K (H0, W0) (H1, W1) i j = K i j := by
  refine ⟨?_, ?_, ?_, ?_, ?_⟩
  · simp [adjust_intrinsics_apply]
  · simp [adjust_intrinsics_apply]
  · simp [adjust_intrinsics_apply]
  · simp [adjust_intrinsics_apply]
  · intro i j h1 h2 h3 h4
    rw [adjust_intrinsics_apply]
    simp only [if_neg h1, if_neg h2, if_neg h3, if_neg h4]

/-- Witness for claim C4 at a concrete matrix and resolutions. -/
theorem adjust_intrinsics_entries_witness :
    adjust_intrinsics_for_resolution !![2, 3, 5; 0, 7, 11; 0, 0, 1]
        (2, 4) (3, 8) 0 0 = 2 * ((8 : ℚ) / (4 : ℚ)) ∧
    adjust_intrinsics_for_resolution !![2, 3, 5; 0, 7, 11; 0, 0, 1]
        (2, 4) (3, 8) 1 1 = 7 * ((3 : ℚ) / (2 : ℚ)) ∧
    adjust_intrinsics_for_resolution !![2, 3, 5; 0, 7, 11; 0, 0, 1]
        (2, 4) (3, 8) 0 2 = 5 * ((8 : ℚ) / (4 : ℚ)) ∧
    adjust_intrinsics_for_resolution !![2, 3, 5; 0, 7, 11; 0, 0, 1]
        (2, 4) (3, 8) 1 2 = 11 * ((3 : ℚ) / (2 : ℚ)) ∧
    adjust_intrinsics_for_resolution !![2, 3, 5; 0, 7, 11; 0, 0, 1]
        (2, 4) (3, 8) 0 1 = 3 := by
  have h := adjust_intrinsics_entries !![2, 3, 5; 0, 7, 11; 0, 0, 1] 2 4 3 8
  exact ⟨h.1, h.2.1, h.2.2.1, h.2.2.2.1,
    h.2.2.2.2 0 1 (by decide) (by decide) (by decide) (by decide)⟩

/-- Claim C5: adjusting K from resolution A to B and then from B back to A
reproduces the original K exactly, for positive dimensions. -/
theorem adjust_intrinsics_roundtrip (K : Mat3) (HA WA HB WB : ℕ)
    (hHA : 0 < HA) (hWA : 0 < WA) (hHB : 0 < HB) (hWB : 0 < WB) :
    adjust_intrinsics_for_resolution
      (adjust_intrinsics_for_resolution K (HA, WA) (HB, WB))
      (HB, WB) (HA, WA) = K := by
  have hHA' : (HA : ℚ) ≠ 0 := Nat.cast_ne_zero.mpr hHA.ne'
  have hWA' : (WA : ℚ) ≠ 0 := Nat.cast_ne_zero.mpr hWA.ne'
  have hHB' : (HB : ℚ) ≠ 0 := Nat.cast_ne_zero.mpr hHB.ne'
  have hWB' : (WB : ℚ) ≠ 0 := Nat.cast_ne_zero.mpr hWB.ne'
  ext i j
  fin_cases i <;> fin_cases j <;>
    simp [adjust_intrinsics_apply] <;> field_simp

/-- Witness for claim C5 at a concrete matrix and resolutions. -/
theorem adjust_intrinsics_roundtrip_witness :
    adjust_intrinsics_for_resolution
      (adjust_intrinsics_for_resolution !![2, 3, 5; 0, 7, 11; 0, 0, 1]
        (2, 4) (3, 8))
      (3, 8) (2, 4) = !![2, 3, 5; 0, 7, 11; 0, 0, 1] :=
  adjust_intrinsics_roundtrip !![2, 3, 5; 0, 7, 11; 0, 0, 1] 2 4 3 8
    (by decide) (by decide) (by decide) (by decide)

/-- A numpy-style store of 3x3 matrices: a reference is a list index,
`copy()` allocates a fresh cell, an in-place update mutates one cell. -/
abbrev Mat3Store := List Mat3

/-- The effect of `K_original.copy()` (line 43): allocate a fresh cell
holding the same entries and return its reference. -/
def npCopy (s : Mat3Store) (ref : ℕ) : Mat3Store × ℕ :=
  (s ++ [s.getD ref 0], s.length)

/-- The effect of `s[ref][i, j] *= c` on the store. -/
def npScaleEntry (s : Mat3Store) (ref : ℕ) (i j : Fin 3) (c : ℚ) :
    Mat3Store :=
  s.set ref (mscaleEntry (s.getD ref 0) i j c)

/-- `adjust_intrinsics_for_resolution` acting on the store: copy the input
cell, scale the four entries of the copy in place, return the copy's
reference (lines 43-49). -/
def adjust_intrinsics_store (s : Mat3Store) (kref : ℕ)
    (original_size target_size : ℕ × ℕ) : Mat3Store × ℕ :=
  let scale_x : ℚ := (target_size.2 : ℚ) / (original_size.2 : ℚ)
  let scale_y : ℚ := (target_size.1 : ℚ) / (original_size.1 : ℚ)
  let c := npCopy s kref
  let s1 := npScaleEntry c.1 c.2 0 0 scale_x
  let s2 := npScaleEntry s1 c.2 1 1 scale_y
  let s3 := npScaleEntry s2 c.2 0 2 scale_x
  let s4 := npScaleEntry s3 c.2 1 2 scale_y
  (s4, c.2)

theorem npScaleEntry_snoc (s : Mat3Store) (m : Mat3) (i j : Fin 3) (c : ℚ) :
    npScaleEntry (s ++ [m]) s.length i j c = s ++ [mscaleEntry m i j c] := by
  have hget : (s ++ [m]).getD s.length 0 = m := by
    rw [List.getD_eq_getElem?_getD, List.getElem?_append_right le_rfl]
    simp
  rw [npScaleEntry, hget]
  rw [List.set_append_right _ _ le_rfl]
  simp

theorem adjust_intrinsics_store_eq (s : Mat3Store) (kref : ℕ)
    (o t : ℕ × ℕ) :
    adjust_intrinsics_store s kref o t =
      (s ++ [adjust_intrinsics_for_resolution (s.getD kref 0) o t],
       s.length) := by
  simp only [adjust_intrinsics_store, npCopy, adjust_intrinsics_for_resolution]
  rw [npScaleEntry_snoc, npScaleEntry_snoc, npScaleEntry_snoc,
    npScaleEntry_snoc]

/-- Claim C9: the store-level adjustment never mutates the caller's input
cell; the adjusted intrinsics live in a newly allocated cell, distinct
from the input reference, and hold the value of the pure adjustment. -/
theorem adjust_intrinsics_no_mutation (s : Mat3Store) (kref : ℕ)
    (o t : ℕ × ℕ) (href : kref < s.length) :
    (adjust_intrinsics_store s kref o t).1.getD kref 0 = s.getD kref 0 ∧
    (adjust_intrinsics_store s kref o t).2 ≠ kref ∧
    (adjust_intrinsics_store s kref o t).1.getD
        (adjust_intrinsics_store s kref o t).2 0 =
      adjust_intrinsics_for_resolution (s.getD kref 0) o t := by
  rw [adjust_intrinsics_store_eq]
  refine ⟨?_, ?_, ?_⟩
  · rw [List.getD_eq_getElem?_getD, List.getElem?_append_left href,
      List.getD_eq_getElem?_getD]
  · exact fun h => absurd (h ▸ href) (lt_irrefl _)
  · rw [List.getD_eq_getElem?_getD, List.getElem?_append_right le_rfl]
    simp

/-- Witness for claim C9 on a concrete one-element store. -/
theorem adjust_intrinsics_no_mutation_witness :
    (adjust_intrinsics_store [!![2, 3, 5; 0, 7, 11; 0, 0, 1]] 0
        (2, 4) (3, 8)).1.getD 0 0 =
      [(!![2, 3, 5; 0, 7, 11; 0, 0, 1] : Mat3)].getD 0 0 ∧
    (adjust_intrinsics_store [!![2, 3, 5; 0, 7, 11; 0, 0, 1]] 0
        (2, 4) (3, 8)).2 ≠ 0 ∧
    (adjust_intrinsics_store [!![2, 3, 5; 0, 7, 11; 0, 0, 1]] 0
        (2, 4) (3, 8)).1.getD
        (adjust_intrinsics_store [!![2, 3, 5; 0, 7, 11; 0, 0, 1]] 0
          (2, 4) (3, 8)).2 0 =
      adjust_intrinsics_for_resolution
        ([(!![2, 3, 5; 0, 7, 11; 0, 0, 1] : Mat3)].getD 0 0) (2, 4) (3, 8) :=
  adjust_intrinsics_no_mutation [!![2, 3, 5; 0, 7, 11; 0, 0, 1]] 0
    (2, 4) (3, 8) (by decide)

/-- numpy `shape[0]` of a row-list image. -/
def rowsOf (img : List (List α)) : ℕ := img.length

/-- numpy `shape[1]` of a row-list image: the length of the first row. -/
def colsOf (img : List (List α)) : ℕ := (img.headD []).length

/-- numpy `shape[:2]`. -/
def shape2 (img : List (List α)) : ℕ × ℕ := (img.length, (img.headD []).length)

/-- Element count of the raveled image (`np.ravel`). -/
def totalPixels (img : List (List α)) : ℕ := (img.map List.length).sum

/-- The image is a proper H x W array: H rows, each of length W. -/
def IsGrid (img : List (List α)) (H W : ℕ) : Prop :=
  img.length = H ∧ ∀ row ∈ img, row.length = W

instance (img : List (List α)) (H W : ℕ) : Decidable (IsGrid img H W) :=
  inferInstanceAs (Decidable (_ ∧ _))

/-- Raw stored depth at flat row-major index i: `np.ravel(depth)[i]`. -/
def depthAt (depth : List (List ℕ)) (i : ℕ) : ℕ := depth.flatten.getD i 0

/-- Z at flat index i: `depth.astype(float) / scale`, raveled (line 81). -/
def zAt (depth : List (List ℕ)) (scale : ℚ) (i : ℕ) : ℚ :=
  (depthAt depth i : ℚ) / scale

/-- Color sample at flat row-major index i: `np.ravel(rgb[:, :, k])[i]`
for the three channels together (lines 99-101). -/
def rgbAt (rgb : List (List Pixel)) (i : ℕ) : Pixel :=
  rgb.flatten.getD i ⟨0, 0, 0⟩

/-- The point built for flat index i of a W-column grid (lines 82-83,
95-96, 99-103): meshgrid coordinates u = i mod W, v = i div W,
back-projection through K, the 4x4 pose applied to the homogeneous
position, and the color attached in red, green, blue order. -/
def pointAt (rgb : List (List Pixel)) (depth : List (List ℕ)) (scale : ℚ)
    (K : Mat3) (pose : Mat4) (W i : ℕ) : Point :=
  let u : ℚ := (i % W : ℕ)
  let v : ℚ := (i / W : ℕ)
  let Z := zAt depth scale i
  let X := (u - K 0 2) * Z / K 0 0
  let Y := (v - K 1 2) * Z / K 1 1
  let px := rgbAt rgb i
  { x := pose 0 0 * X + pose 0 1 * Y + pose 0 2 * Z + pose 0 3
    y := pose 1 0 * X + pose 1 1 * Y + pose 1 2 * Z + pose 1 3
    z := pose 2 0 * X + pose 2 1 * Y + pose 2 2 * Z + pose 2 3
    r := px.c2
    g := px.c1
    b := px.c0 }

/-- Lines 74-103 of `depth_image_to_point_cloud` once rgb and depth share
a grid: one row-major pass over the flat indices of the depth grid,
keeping exactly the indices whose Z is strictly positive (line 89). -/
def backprojectPoints (rgb : List (List Pixel)) (depth : List (List ℕ))
    (scale : ℚ) (K : Mat3) (pose : Mat4) : List Point :=
  (List.range (depth.length * colsOf depth)).filterMap fun i =>
    if 0 < zAt depth scale i then
      some (pointAt rgb depth scale K pose (colsOf depth) i)
    else none

/-- `depth_image_to_point_cloud` (lines 52-105), with the external
resampler passed in (`cv2.resize` is an external collaborator; the spec
calls it the companion resize step). When `rgb_size` is given and the two
shapes differ, the intrinsics are adjusted to the depth resolution and rgb
is resized to the depth grid (lines 64-71); the error value models the
numpy boolean-index failure at lines 99-101, which fires exactly when the
raveled rgb channel length differs from the mask length. -/
def depth_image_to_point_cloud
    (resize : List (List Pixel) → ℕ → ℕ → List (List Pixel))
    (rgb : List (List Pixel)) (depth : List (List ℕ)) (scale : ℚ)
    (K : Mat3) (pose : Mat4) (rgb_size : Option (ℕ × ℕ)) :
    Except String (List Point) :=
  let step :=
    match rgb_size with
    | some sz =>
      if shape2 rgb ≠ shape2 depth then
        (adjust_intrinsics_for_resolution K sz (shape2 depth),
         resize rgb (colsOf depth) (rowsOf depth))
      else (K, rgb)
    | none => (K, rgb)
  if totalPixels step.2 ≠ depth.length * colsOf depth then
    Except.error "boolean index did not match indexed array"
  else
    Except.ok (backprojectPoints step.2 depth scale step.1 pose)

/-- Modelled from the spec: the companion resize step (`cv2.resize`, an
external collaborator per the spec's scope section) that resamples the
RGB image to the given width and height; modelled as nearest-neighbor
resampling. -/
def nearestResize (img : List (List Pixel)) (newW newH : ℕ) :
    List (List Pixel) :=
  (List.range newH).map fun y =>
    (List.range newW).map fun x =>
      (img.getD (y * img.length / newH) []).getD
        (x * colsOf img / newW) ⟨0, 0, 0⟩

/-- Modelled from the spec's words for the output-ordering claim:
row-major scan order over an H x W pixel grid, row 0 left to right, then
row 1, and so on; pairs are (row, column). -/
def specScanOrder (H W : ℕ) : List (ℕ × ℕ) :=
  (List.range H).flatMap fun v => (List.range W).map fun u => (v, u)

/-- Stored depth of pixel (v, u) read from the row list. -/
def depthPixel (depth : List (List ℕ)) (v u : ℕ) : ℕ :=
  (depth.getD v []).getD u 0

theorem filterMap_ite_eq_filter_map {α β : Type} {p : α → Prop}
    [DecidablePred p] (f : α → β) (l : List α) :
    (l.filterMap fun a => if p a then some (f a) else none) =
      (l.filter fun a => decide (p a)).map f := by
  induction l with
  | nil => rfl
  | cons a l ih => by_cases h : p a <;> simp [h, ih]

theorem grid_totalPixels {α : Type} (img : List (List α)) (H W : ℕ)
    (h : IsGrid img H W) : totalPixels img = H * W := by
  obtain ⟨hlen, hrow⟩ := h
  subst hlen
  induction img with
  | nil => simp [totalPixels]
  | cons r rows ih =>
    have hr : r.length = W := hrow r (List.mem_cons_self r rows)
    have ih' := ih fun row hm => hrow row (List.mem_cons_of_mem r hm)
    simp only [totalPixels, List.map_cons, List.sum_cons, List.length_cons]
    rw [show totalPixels rows = (rows.map List.length).sum from rfl] at ih'
    rw [ih', hr, Nat.succ_mul, Nat.add_comm]

theorem grid_flatten_length {α : Type} (img : List (List α)) (H W : ℕ)
    (h : IsGrid img H W) : img.flatten.length = H * W := by
  rw [List.length_flatten]
  exact grid_totalPixels img H W h

theorem grid_dims_mul {α : Type} (img : List (List α)) (H W : ℕ)
    (h : IsGrid img H W) : img.length * colsOf img = H * W := by
  obtain ⟨hlen, hrow⟩ := h
  cases img with
  | nil => simp [colsOf] at hlen ⊢; omega
  | cons r rows =>
    have hr : r.length = W := hrow r (List.mem_cons_self r rows)
    simp [colsOf, hr, ← hlen]

theorem grid_colsOf {α : Type} (img : List (List α)) (H W : ℕ)
    (h : IsGrid img H W) (hH : 0 < H) : colsOf img = W := by
  obtain ⟨hlen, hrow⟩ := h
  cases img with
  | nil => simp at hlen; omega
  | cons r rows => exact hrow r (List.mem_cons_self r rows)

theorem flatten_getD_grid {α : Type} (rows : List (List α)) (W : ℕ)
    (hW : ∀ r ∈ rows, r.length = W) (v u : ℕ) (hv : v < rows.length)
    (hu : u < W) (d : α) :
    rows.flatten.getD (v * W + u) d = (rows.getD v []).getD u d := by
  induction rows generalizing v with
  | nil => simp at hv
  | cons r rest ih =>
    have hr : r.length = W := hW r (List.mem_cons_self r rest)
    cases v with
    | zero =>
      simp only [List.flatten_cons, Nat.zero_mul, Nat.zero_add,
        List.getD_cons_zero]
      rw [List.getD_eq_getElem?_getD, List.getElem?_append_left (by omega),
        ← List.getD_eq_getElem?_getD]
    | succ v' =>
      have hsplit : (v' + 1) * W + u = r.length + (v' * W + u) := by
        rw [hr]; ring
      rw [List.flatten_cons, hsplit, List.getD_eq_getElem?_getD,
        List.getElem?_append_right (by omega), Nat.add_sub_cancel_left,
        ← List.getD_eq_getElem?_getD, List.getD_cons_succ]
      exact ih (fun row hm => hW row (List.mem_cons_of_mem r hm)) v'
        (by simpa using hv)

theorem zAt_pos_iff (depth : List (List ℕ)) (scale : ℚ) (i : ℕ)
    (hs : 0 < scale) : 0 < zAt depth scale i ↔ 0 < depthAt depth i := by
  rw [zAt, div_pos_iff]
  constructor
  · rintro (⟨h, _⟩ | ⟨_, hneg⟩)
    · exact_mod_cast h
    · exact absurd hs (not_lt.mpr hneg.le)
  · intro h
    exact Or.inl ⟨by exact_mod_cast h, hs⟩

theorem range_mul_flatMap (H W : ℕ) :
    List.range (H * W) =
      (List.range H).flatMap fun v => (List.range W).map fun u => v * W + u := by
  induction H with
  | zero => simp
  | succ H ih =>
    rw [List.range_succ, Nat.succ_mul, List.range_add, ih,
      List.flatMap_append]
    simp

theorem length_filter_range_getD {α : Type} (l : List α) (p : α → Bool)
    (d : α) :
    ((List.range l.length).filter fun i => p (l.getD i d)).length =
      (l.filter p).length := by
  induction l with
  | nil => rfl
  | cons a l ih =>
    rw [List.length_cons, List.range_succ_eq_map]
    rw [List.filter_cons, List.filter_cons]
    have hmap : ((List.map Nat.succ (List.range l.length)).filter
          fun i => p ((a :: l).getD i d)) =
        (List.map Nat.succ ((List.range l.length).filter
          fun i => p (l.getD i d))) := by
      rw [List.filter_map]
      congr 1
    by_cases h : p a = true
    · simp only [List.getD_cons_zero, h, if_pos]
      rw [List.length_cons, List.length_cons, hmap, List.length_map, ih]
    · simp only [List.getD_cons_zero, h, if_neg, Bool.false_eq_true,
        not_false_iff]
      rw [hmap, List.length_map, ih]


theorem idx_mod (v u W : ℕ) (hu : u < W) : (v * W + u) % W = u := by
  rw [Nat.mul_comm, Nat.mul_add_mod, Nat.mod_eq_of_lt hu]

theorem idx_div (v u W : ℕ) (hu : u < W) : (v * W + u) / W = v := by
  rw [Nat.mul_comm, Nat.mul_add_div (by omega), Nat.div_eq_of_lt hu,
    Nat.add_zero]

theorem backproject_eq_scan (rgb : List (List Pixel))
    (depth : List (List ℕ)) (scale : ℚ) (K : Mat3) (pose : Mat4)
    (H W : ℕ) (hd : IsGrid depth H W) (hs : 0 < scale) :
    backprojectPoints rgb depth scale K pose =
      ((specScanOrder H W).filter fun vu =>
          decide (0 < depthPixel depth vu.1 vu.2)).map
        fun vu => pointAt rgb depth scale K pose W (vu.1 * W + vu.2) := by
  rcases Nat.eq_zero_or_pos H with hH | hH
  · subst hH
    have hnil : depth = [] := List.length_eq_zero.mp hd.1
    subst hnil
    simp [backprojectPoints, specScanOrder]
  · have hlen : depth.length = H := hd.1
    have hcols : colsOf depth = W := grid_colsOf depth H W hd hH
    rw [backprojectPoints, hlen, hcols, filterMap_ite_eq_filter_map,
      range_mul_flatMap, specScanOrder, List.filter_flatMap,
      List.filter_flatMap, List.map_flatMap, List.map_flatMap]
    apply List.flatMap_congr
    intro v hv
    have hvH : v < H := List.mem_range.mp hv
    rw [List.filter_map, List.filter_map, List.map_map, List.map_map]
    have hfeq : ∀ u ∈ List.range W,
        ((fun i => decide (0 < zAt depth scale i)) ∘ fun u => v * W + u) u =
        ((fun vu : ℕ × ℕ => decide (0 < depthPixel depth vu.1 vu.2)) ∘
          fun u => (v, u)) u := by
      intro u hu
      have huW : u < W := List.mem_range.mp hu
      simp only [Function.comp_apply]
      apply decide_eq_decide.mpr
      rw [zAt_pos_iff depth scale _ hs]
      unfold depthAt depthPixel
      rw [flatten_getD_grid depth W (fun r hm => hd.2 r hm) v u
        (by omega) huW]
    rw [List.filter_congr hfeq]
    apply List.map_congr_left
    intro u hu
    rfl

theorem backproject_length (rgb : List (List Pixel))
    (depth : List (List ℕ)) (scale : ℚ) (K : Mat3) (pose : Mat4)
    (H W : ℕ) (hd : IsGrid depth H W) (hs : 0 < scale) :
    (backprojectPoints rgb depth scale K pose).length =
      (depth.flatten.filter fun d => decide (0 < d)).length := by
  rw [backprojectPoints, filterMap_ite_eq_filter_map, List.length_map]
  have hcond : ∀ i ∈ List.range (depth.length * colsOf depth),
      (fun i => decide (0 < zAt depth scale i)) i =
      (fun i => decide (0 < depthAt depth i)) i := fun i _ =>
    decide_eq_decide.mpr (zAt_pos_iff depth scale i hs)
  rw [List.filter_congr hcond]
  have hlen2 : depth.length * colsOf depth = depth.flatten.length := by
    rw [grid_flatten_length depth H W hd]
    exact grid_dims_mul depth H W hd
  rw [hlen2]
  exact length_filter_range_getD depth.flatten (fun d => decide (0 < d)) 0

theorem cloud_matched_ok
    (resize : List (List Pixel) → ℕ → ℕ → List (List Pixel))
    (rgb : List (List Pixel)) (depth : List (List ℕ)) (H W : ℕ)
    (scale : ℚ) (K : Mat3) (pose : Mat4)
    (hr : IsGrid rgb H W) (hd : IsGrid depth H W) :
    depth_image_to_point_cloud resize rgb depth scale K pose none =
      Except.ok (backprojectPoints rgb depth scale K pose) := by
  have hpix : totalPixels rgb = depth.length * colsOf depth := by
    rw [grid_totalPixels rgb H W hr, grid_dims_mul depth H W hd]
  unfold depth_image_to_point_cloud
  simp [hpix]

theorem cloud_mismatch_resizes
    (resize : List (List Pixel) → ℕ → ℕ → List (List Pixel))
    (rgb : List (List Pixel)) (depth : List (List ℕ)) (scale : ℚ)
    (K : Mat3) (pose : Mat4) (sz : ℕ × ℕ)
    (hne : shape2 rgb ≠ shape2 depth)
    (hres : totalPixels (resize rgb (colsOf depth) (rowsOf depth)) =
      depth.length * colsOf depth) :
    depth_image_to_point_cloud resize rgb depth scale K pose (some sz) =
      Except.ok (backprojectPoints
        (resize rgb (colsOf depth) (rowsOf depth)) depth scale
        (adjust_intrinsics_for_resolution K sz (shape2 depth)) pose) := by
  unfold depth_image_to_point_cloud
  simp [hne, hres]

theorem pointAt_mem_backproject (rgb : List (List Pixel))
    (depth : List (List ℕ)) (scale : ℚ) (K : Mat3) (pose : Mat4)
    (H W v u : ℕ) (hd : IsGrid depth H W) (hv : v < H) (hu : u < W)
    (hpos : 0 < depthPixel depth v u) (hs : 0 < scale) :
    pointAt rgb depth scale K pose W (v * W + u) ∈
      backprojectPoints rgb depth scale K pose := by
  have hlen : depth.length = H := hd.1
  have hcols : colsOf depth = W := grid_colsOf depth H W hd (by omega)
  have hZ : 0 < zAt depth scale (v * W + u) := by
    rw [zAt_pos_iff depth scale _ hs]
    unfold depthAt
    rw [flatten_getD_grid depth W (fun r hm => hd.2 r hm) v u (by omega) hu]
    exact hpos
  rw [backprojectPoints, hlen, hcols]
  apply List.mem_filterMap.mpr
  refine ⟨v * W + u, List.mem_range.mpr ?_, ?_⟩
  · have h1 : v * W + u < (v + 1) * W := by rw [Nat.succ_mul]; omega
    have h2 : (v + 1) * W ≤ H * W := Nat.mul_le_mul_right W (by omega)
    omega
  · rw [if_pos hZ]

theorem reproject_cancel (a c f Z : ℚ) (hf : f ≠ 0) (hZ : Z ≠ 0) :
    (a - c) * Z / f * f / Z + c = a := by
  field_simp

/-- Claim C2: for rgb and depth on the same H x W grid and positive scale
factor, depth_image_to_point_cloud succeeds; each pixel with strictly
positive stored depth contributes its point to the output, and the output
length equals the number of strictly positive stored depth values (so
pixels with depth 0 contribute nothing). -/
theorem cloud_point_count
    (resize : List (List Pixel) → ℕ → ℕ → List (List Pixel))
    (rgb : List (List Pixel)) (depth : List (List ℕ)) (H W : ℕ)
    (scale : ℚ) (K : Mat3) (pose : Mat4)
    (hr : IsGrid rgb H W) (hd : IsGrid depth H W) (hs : 0 < scale) :
    Except.map List.length
        (depth_image_to_point_cloud resize rgb depth scale K pose none) =
      Except.ok ((depth.flatten.filter fun d => decide (0 < d)).length) ∧
    ∀ v u : ℕ, v < H → u < W → 0 < depthPixel depth v u →
      pointAt rgb depth scale K pose W (v * W + u) ∈
        backprojectPoints rgb depth scale K pose := by
  constructor
  · rw [cloud_matched_ok resize rgb depth H W scale K pose hr hd]
    simp only [Except.map]
    rw [backproject_length rgb depth scale K pose H W hd hs]
  · intro v u hv hu hpos
    exact pointAt_mem_backproject rgb depth scale K pose H W v u hd hv hu
      hpos hs

/-- Witness for claim C2 on the spec's 2 x 2 scenario. -/
theorem cloud_point_count_witness :
    Except.map List.length
        (depth_image_to_point_cloud nearestResize
          [[⟨255, 255, 255⟩, ⟨255, 255, 255⟩],
           [⟨255, 255, 255⟩, ⟨255, 255, 255⟩]]
          [[0, 1000], [2000, 0]] 1000 1 1 none) =
      Except.ok ((([[0, 1000], [2000, 0]] : List (List ℕ)).flatten.filter
        fun d => decide (0 < d)).length) ∧
    ∀ v u : ℕ, v < 2 → u < 2 →
      0 < depthPixel [[0, 1000], [2000, 0]] v u →
      pointAt [[⟨255, 255, 255⟩, ⟨255, 255, 255⟩],
           [⟨255, 255, 255⟩, ⟨255, 255, 255⟩]]
          [[0, 1000], [2000, 0]] 1000 1 1 2 (v * 2 + u) ∈
        backprojectPoints [[⟨255, 255, 255⟩, ⟨255, 255, 255⟩],
           [⟨255, 255, 255⟩, ⟨255, 255, 255⟩]]
          [[0, 1000], [2000, 0]] 1000 1 1 :=
  cloud_point_count nearestResize
    [[⟨255, 255, 255⟩, ⟨255, 255, 255⟩],
     [⟨255, 255, 255⟩, ⟨255, 255, 255⟩]]
    [[0, 1000], [2000, 0]] 2 2 1000 1 1
    (by decide) (by decide) (by decide)

/-- Claim C7: for matched grids the output lists the surviving pixels in
row-major scan order over the H x W grid, all of row 0 left to right,
then row 1, and so on, with no sorting and no deduplication: the result is
the row-major pixel list filtered to strictly positive stored depth and
mapped through the per-pixel point constructor. -/
theorem cloud_row_major
    (resize : List (List Pixel) → ℕ → ℕ → List (List Pixel))
    (rgb : List (List Pixel)) (depth : List (List ℕ)) (H W : ℕ)
    (scale : ℚ) (K : Mat3) (pose : Mat4)
    (hr : IsGrid rgb H W) (hd : IsGrid depth H W) (hs : 0 < scale) :
    depth_image_to_point_cloud resize rgb depth scale K pose none =
      Except.ok (((specScanOrder H W).filter fun vu =>
          decide (0 < depthPixel depth vu.1 vu.2)).map
        fun vu => pointAt rgb depth scale K pose W (vu.1 * W + vu.2)) := by
  rw [cloud_matched_ok resize rgb depth H W scale K pose hr hd,
    backproject_eq_scan rgb depth scale K pose H W hd hs]

/-- Witness for claim C7 on the spec's 2 x 2 scenario. -/
theorem cloud_row_major_witness :
    depth_image_to_point_cloud nearestResize
        [[⟨255, 255, 255⟩, ⟨255, 255, 255⟩],
         [⟨255, 255, 255⟩, ⟨255, 255, 255⟩]]
        [[0, 1000], [2000, 0]] 1000 1 1 none =
      Except.ok (((specScanOrder 2 2).filter fun vu =>
          decide (0 < depthPixel [[0, 1000], [2000, 0]] vu.1 vu.2)).map
        fun vu => pointAt
          [[⟨255, 255, 255⟩, ⟨255, 255, 255⟩],
           [⟨255, 255, 255⟩, ⟨255, 255, 255⟩]]
          [[0, 1000], [2000, 0]] 1000 1 1 2 (vu.1 * 2 + vu.2)) :=
  cloud_row_major nearestResize
    [[⟨255, 255, 255⟩, ⟨255, 255, 255⟩],
     [⟨255, 255, 255⟩, ⟨255, 255, 255⟩]]
    [[0, 1000], [2000, 0]] 2 2 1000 1 1
    (by decide) (by decide) (by decide)

/-- Claim C3: back-projection is invertible: with identity pose, the point
emitted for pixel (u, v) with strictly positive stored depth satisfies
x * fx / z + cx = u and y * fy / z + cy = v exactly in rational
arithmetic, whenever fx and fy are nonzero and the scale is positive. -/
theorem cloud_reprojection (rgb : List (List Pixel))
    (depth : List (List ℕ)) (H W u v : ℕ) (scale : ℚ) (K : Mat3)
    (hd : IsGrid depth H W) (hv : v < H) (hu : u < W)
    (hpos : 0 < depthPixel depth v u) (hs : 0 < scale)
    (hfx : K 0 0 ≠ 0) (hfy : K 1 1 ≠ 0) :
    pointAt rgb depth scale K 1 W (v * W + u) ∈
      backprojectPoints rgb depth scale K 1 ∧
    (pointAt rgb depth scale K 1 W (v * W + u)).x * K 0 0 /
        (pointAt rgb depth scale K 1 W (v * W + u)).z + K 0 2 = (u : ℚ) ∧
    (pointAt rgb depth scale K 1 W (v * W + u)).y * K 1 1 /
        (pointAt rgb depth scale K 1 W (v * W + u)).z + K 1 2 = (v : ℚ) := by
  have hZ : 0 < zAt depth scale (v * W + u) := by
    rw [zAt_pos_iff depth scale _ hs]
    unfold depthAt
    rw [flatten_getD_grid depth W (fun r hm => hd.2 r hm) v u
      (by have := hd.1; omega) hu]
    exact hpos
  have hZne : zAt depth scale (v * W + u) ≠ 0 := hZ.ne'
  refine ⟨pointAt_mem_backproject rgb depth scale K 1 H W v u hd hv hu
    hpos hs, ?_, ?_⟩
  · simp only [pointAt, Matrix.one_apply, if_pos, if_neg,
      Fin.isValue, one_mul, zero_mul, add_zero, zero_add,
      idx_mod v u W hu, idx_div v u W hu]
    have e1 : ((0 : Fin 4) = 3) = False := eq_false (by decide)
    have e2 : ((2 : Fin 4) = 3) = False := eq_false (by decide)
    norm_num [Fin.ext_iff, e1, e2]
    exact reproject_cancel (u : ℚ) (K 0 2) (K 0 0) _ hfx hZne
  · simp only [pointAt, Matrix.one_apply, if_pos, if_neg,
      Fin.isValue, one_mul, zero_mul, add_zero, zero_add,
      idx_mod v u W hu, idx_div v u W hu]
    have e1 : ((1 : Fin 4) = 3) = False := eq_false (by decide)
    have e2 : ((2 : Fin 4) = 3) = False := eq_false (by decide)
    norm_num [Fin.ext_iff, e1, e2]
    exact reproject_cancel (v : ℚ) (K 1 2) (K 1 1) _ hfy hZne

/-- Witness for claim C3 at pixel (u, v) = (1, 0) of the spec's 2 x 2
scenario. -/
theorem cloud_reprojection_witness :
    pointAt
        [[⟨255, 255, 255⟩, ⟨255, 255, 255⟩],
         [⟨255, 255, 255⟩, ⟨255, 255, 255⟩]]
        [[0, 1000], [2000, 0]] 1000 !![1, 0, 0; 0, 1, 0; 0, 0, 1] 1 2
        (0 * 2 + 1) ∈
      backprojectPoints
        [[⟨255, 255, 255⟩, ⟨255, 255, 255⟩],
         [⟨255, 255, 255⟩, ⟨255, 255, 255⟩]]
        [[0, 1000], [2000, 0]] 1000 !![1, 0, 0; 0, 1, 0; 0, 0, 1] 1 ∧
    (pointAt
        [[⟨255, 255, 255⟩, ⟨255, 255, 255⟩],
         [⟨255, 255, 255⟩, ⟨255, 255, 255⟩]]
        [[0, 1000], [2000, 0]] 1000 !![1, 0, 0; 0, 1, 0; 0, 0, 1] 1 2
        (0 * 2 + 1)).x * !![(1 : ℚ), 0, 0; 0, 1, 0; 0, 0, 1] 0 0 /
        (pointAt
          [[⟨255, 255, 255⟩, ⟨255, 255, 255⟩],
           [⟨255, 255, 255⟩, ⟨255, 255, 255⟩]]
          [[0, 1000], [2000, 0]] 1000 !![1, 0, 0; 0, 1, 0; 0, 0, 1] 1 2
          (0 * 2 + 1)).z + !![(1 : ℚ), 0, 0; 0, 1, 0; 0, 0, 1] 0 2 =
      ((1 : ℕ) : ℚ) ∧
    (pointAt
        [[⟨255, 255, 255⟩, ⟨255, 255, 255⟩],
         [⟨255, 255, 255⟩, ⟨255, 255, 255⟩]]
        [[0, 1000], [2000, 0]] 1000 !![1, 0, 0; 0, 1, 0; 0, 0, 1] 1 2
        (0 * 2 + 1)).y * !![(1 : ℚ), 0, 0; 0, 1, 0; 0, 0, 1] 1 1 /
        (pointAt
          [[⟨255, 255, 255⟩, ⟨255, 255, 255⟩],
           [⟨255, 255, 255⟩, ⟨255, 255, 255⟩]]
          [[0, 1000], [2000, 0]] 1000 !![1, 0, 0; 0, 1, 0; 0, 0, 1] 1 2
          (0 * 2 + 1)).z + !![(1 : ℚ), 0, 0; 0, 1, 0; 0, 0, 1] 1 2 =
      ((0 : ℕ) : ℚ) :=
  cloud_reprojection
    [[⟨255, 255, 255⟩, ⟨255, 255, 255⟩],
     [⟨255, 255, 255⟩, ⟨255, 255, 255⟩]]
    [[0, 1000], [2000, 0]] 2 2 1 0 1000 !![1, 0, 0; 0, 1, 0; 0, 0, 1]
    (by decide) (by decide) (by decide) (by decide) (by decide)
    (by decide) (by decide)

/-- Claim C6: color channel reordering: a surviving pixel whose stored rgb
sample has source channels blue 10, green 20, red 30 yields an emitted
point carrying red 30, green 20, blue 10. -/
theorem cloud_color_reorder (rgb : List (List Pixel))
    (depth : List (List ℕ)) (H W u v : ℕ) (scale : ℚ) (K : Mat3)
    (pose : Mat4) (hr : IsGrid rgb H W) (hd : IsGrid depth H W)
    (hv : v < H) (hu : u < W) (hpos : 0 < depthPixel depth v u)
    (hs : 0 < scale)
    (hpx : (rgb.getD v []).getD u ⟨0, 0, 0⟩ = ⟨10, 20, 30⟩) :
    (pointAt rgb depth scale K pose W (v * W + u)).r = 30 ∧
    (pointAt rgb depth scale K pose W (v * W + u)).g = 20 ∧
    (pointAt rgb depth scale K pose W (v * W + u)).b = 10 ∧
    pointAt rgb depth scale K pose W (v * W + u) ∈
      backprojectPoints rgb depth scale K pose := by
  have hlen : rgb.length = H := hr.1
  have hat : rgbAt rgb (v * W + u) = ⟨10, 20, 30⟩ := by
    unfold rgbAt
    rw [flatten_getD_grid rgb W (fun r hm => hr.2 r hm) v u (by omega) hu]
    exact hpx
  exact ⟨by simp [pointAt, hat], by simp [pointAt, hat],
    by simp [pointAt, hat],
    pointAt_mem_backproject rgb depth scale K pose H W v u hd hv hu
      hpos hs⟩

/-- Witness for claim C6 at pixel (u, v) = (1, 0) of a 2 x 2 frame whose
sample there stores channels (10, 20, 30). -/
theorem cloud_color_reorder_witness :
    (pointAt [[⟨0, 0, 0⟩, ⟨10, 20, 30⟩], [⟨0, 0, 0⟩, ⟨0, 0, 0⟩]]
        [[0, 1000], [2000, 0]] 1000 1 1 2 (0 * 2 + 1)).r = 30 ∧
    (pointAt [[⟨0, 0, 0⟩, ⟨10, 20, 30⟩], [⟨0, 0, 0⟩, ⟨0, 0, 0⟩]]
        [[0, 1000], [2000, 0]] 1000 1 1 2 (0 * 2 + 1)).g = 20 ∧
    (pointAt [[⟨0, 0, 0⟩, ⟨10, 20, 30⟩], [⟨0, 0, 0⟩, ⟨0, 0, 0⟩]]
        [[0, 1000], [2000, 0]] 1000 1 1 2 (0 * 2 + 1)).b = 10 ∧
    pointAt [[⟨0, 0, 0⟩, ⟨10, 20, 30⟩], [⟨0, 0, 0⟩, ⟨0, 0, 0⟩]]
        [[0, 1000], [2000, 0]] 1000 1 1 2 (0 * 2 + 1) ∈
      backprojectPoints [[⟨0, 0, 0⟩, ⟨10, 20, 30⟩], [⟨0, 0, 0⟩, ⟨0, 0, 0⟩]]
        [[0, 1000], [2000, 0]] 1000 1 1 :=
  cloud_color_reorder [[⟨0, 0, 0⟩, ⟨10, 20, 30⟩], [⟨0, 0, 0⟩, ⟨0, 0, 0⟩]]
    [[0, 1000], [2000, 0]] 2 2 1 0 1000 1 1
    (by decide) (by decide) (by decide) (by decide) (by decide)
    (by decide) (by decide)

/-- Claim C1 counterexample: rgb covers a 1 x 1 grid and depth a 1 x 2
grid with rgb_size supplied as the repository's only caller always does;
instead of rejecting, the function silently resizes and emits 2 points. -/
theorem cloud_mismatch_counterexample :
    Except.map List.length (depth_image_to_point_cloud nearestResize
        [[⟨1, 2, 3⟩]] [[5, 7]] 1 1 1 (some (1, 1))) =
      Except.ok 2 := by
  rw [cloud_mismatch_resizes nearestResize [[⟨1, 2, 3⟩]] [[5, 7]] 1 1 1
    (1, 1) (by decide) (by decide)]
  simp only [Except.map]
  rw [backproject_length _ [[5, 7]] 1 _ 1 1 2 (by decide) (by decide)]
  exact congrArg Except.ok (by decide)

/-- Claim C1 (amended): when the rgb and depth grids differ and rgb_size
is provided (as the repository's only caller always does),
depth_image_to_point_cloud does not reject: it silently adjusts the
intrinsics to the depth resolution, resizes rgb to the depth grid, and
emits one point per strictly positive depth pixel; only on the
no-rgb_size path, and only when the raveled pixel counts differ, does the
color-indexing step fail, after back-projection has already run. -/
theorem cloud_mismatch_no_reject
    (resize : List (List Pixel) → ℕ → ℕ → List (List Pixel))
    (rgb : List (List Pixel)) (depth : List (List ℕ)) (H W : ℕ)
    (scale : ℚ) (K : Mat3) (pose : Mat4) (sz : ℕ × ℕ)
    (hd : IsGrid depth H W) (hs : 0 < scale)
    (hne : shape2 rgb ≠ shape2 depth)
    (hres : totalPixels (resize rgb (colsOf depth) (rowsOf depth)) =
      depth.length * colsOf depth)
    (hnone : totalPixels rgb ≠ depth.length * colsOf depth) :
    depth_image_to_point_cloud resize rgb depth scale K pose (some sz) =
      Except.ok (backprojectPoints
        (resize rgb (colsOf depth) (rowsOf depth)) depth scale
        (adjust_intrinsics_for_resolution K sz (shape2 depth)) pose) ∧
    Except.map List.length
        (depth_image_to_point_cloud resize rgb depth scale K pose
          (some sz)) =
      Except.ok ((depth.flatten.filter fun d => decide (0 < d)).length) ∧
    depth_image_to_point_cloud resize rgb depth scale K pose none =
      Except.error "boolean index did not match indexed array" := by
  have hok := cloud_mismatch_resizes resize rgb depth scale K pose sz
    hne hres
  refine ⟨hok, ?_, ?_⟩
  · rw [hok]
    simp only [Except.map]
    rw [backproject_length _ depth scale _ pose H W hd hs]
  · unfold depth_image_to_point_cloud
    simp [hnone]

/-- Witness for the amended claim C1 on the concrete mismatched frame. -/
theorem cloud_mismatch_no_reject_witness :
    depth_image_to_point_cloud nearestResize [[⟨1, 2, 3⟩]] [[5, 7]] 1 1 1
        (some (1, 1)) =
      Except.ok (backprojectPoints
        (nearestResize [[⟨1, 2, 3⟩]] (colsOf [[5, 7]]) (rowsOf [[5, 7]]))
        [[5, 7]] 1
        (adjust_intrinsics_for_resolution 1 (1, 1) (shape2 [[5, 7]])) 1) ∧
    Except.map List.length
        (depth_image_to_point_cloud nearestResize [[⟨1, 2, 3⟩]] [[5, 7]]
          1 1 1 (some (1, 1))) =
      Except.ok ((([[5, 7]] : List (List ℕ)).flatten.filter
        fun d => decide (0 < d)).length) ∧
    depth_image_to_point_cloud nearestResize [[⟨1, 2, 3⟩]] [[5, 7]] 1 1 1
        none =
      Except.error "boolean index did not match indexed array" :=
  cloud_mismatch_no_reject nearestResize [[⟨1, 2, 3⟩]] [[5, 7]] 1 2 1 1 1
    (1, 1) (by decide) (by decide) (by decide) (by decide) (by decide)

/-- One formatted point line (depth2Cloud.py line 11): three floats, then
three integers, then the constant trailing alpha 0, space separated and
newline terminated; the float renderer is passed in, since the C-style
float formatting belongs to the Python runtime, not to the kernel. -/
def formatted_point (fmtFloat : ℚ → String) (p : Point) : String :=
  fmtFloat p.x ++ " " ++ fmtFloat p.y ++ " " ++ fmtFloat p.z ++ " " ++
    toString (p.r : ℕ) ++ " " ++ toString (p.g : ℕ) ++ " " ++
    toString (p.b : ℕ) ++ " 0\n"

/-- `write_point_cloud` (lines 8-27): every point is formatted, then the
one PLY template literal is emitted with the vertex count and the joined
point block interpolated at its two slots; every template line after the
first carries the four leading spaces of the Python source indentation,
and the point block is inserted right after the four spaces that follow
the end_header line. -/
def write_point_cloud (fmtFloat : ℚ → String) (points : List Point) :
    String :=
  "ply\n    format ascii 1.0\n    element vertex " ++
    toString points.length ++
    "\n    property float x\n    property float y\n    property float z\n    property uchar blue\n    property uchar green\n    property uchar red\n    property uchar alpha\n    end_header\n    " ++
    String.join (points.map (formatted_point fmtFloat)) ++ "\n    "

/-- Modelled from the spec's serialization words: the header lines, a
fixed property list declaring x, y, z as floats and then four color and
alpha byte properties, with the vertex count; header line 3 + k declares
the k-th field of every data line. -/
def specHeaderLines (n : ℕ) : List String :=
  ["ply", "    format ascii 1.0", "    element vertex " ++ toString n] ++
    (["float x", "float y", "float z", "uchar blue", "uchar green",
      "uchar red", "uchar alpha"].map fun pr => "    property " ++ pr) ++
    ["    end_header"]

/-- Modelled from the spec's serialization words: the value fields of one
point line, three floats then three byte integers, with the trailing
alpha field 0. -/
def specPointFields (fmtFloat : ℚ → String) (p : Point) : List String :=
  [fmtFloat p.x, fmtFloat p.y, fmtFloat p.z, toString (p.r : ℕ),
   toString (p.g : ℕ), toString (p.b : ℕ), "0"]

/-- Modelled from the spec's serialization words: the whole file, the
newline-joined header followed by one line per point, each line its
space-joined fields, with the indentation and trailing whitespace the
source template carries. -/
def specPlyFile (fmtFloat : ℚ → String) (points : List Point) : String :=
  String.intercalate "\n" (specHeaderLines points.length) ++ "\n    " ++
    String.join (points.map fun p =>
      String.intercalate " " (specPointFields fmtFloat p) ++ "\n") ++
    "\n    "

theorem formatted_point_eq_fields (fmtFloat : ℚ → String) (p : Point) :
    formatted_point fmtFloat p =
      String.intercalate " " (specPointFields fmtFloat p) ++ "\n" := by
  apply String.ext
  simp [formatted_point, specPointFields, String.intercalate,
    String.intercalate.go, String.data_append, List.append_assoc]

set_option maxRecDepth 8192 in
theorem write_eq_specPly (fmtFloat : ℚ → String) (points : List Point) :
    write_point_cloud fmtFloat points = specPlyFile fmtFloat points := by
  rw [write_point_cloud, specPlyFile,
    List.map_congr_left fun p _ => formatted_point_eq_fields fmtFloat p]
  apply String.ext
  simp [specHeaderLines, String.intercalate, String.intercalate.go,
    String.data_append, List.append_assoc]

/-- Claim C8: write_point_cloud produces the header that declares x, y, z
as float properties plus four byte color and alpha properties and a
vertex count equal to the number of points, followed by exactly one line
per point whose space-separated fields are the three rendered floats and
the three color integers, byte valued hence in 0..255, terminated by the
trailing alpha field 0. -/
theorem write_point_cloud_format (fmtFloat : ℚ → String)
    (points : List Point) :
    write_point_cloud fmtFloat points = specPlyFile fmtFloat points ∧
    (specHeaderLines points.length).getD 2 "" =
      "    element vertex " ++ toString points.length ∧
    ∀ p ∈ points, (specPointFields fmtFloat p).length = 7 ∧
      (specPointFields fmtFloat p).getD 6 "" = "0" ∧
      (specPointFields fmtFloat p).getD 3 "" = toString (p.r : ℕ) ∧
      (p.r : ℕ) ≤ 255 ∧ (p.g : ℕ) ≤ 255 ∧ (p.b : ℕ) ≤ 255 := by
  refine ⟨write_eq_specPly fmtFloat points, by simp [specHeaderLines], ?_⟩
  intro p _
  exact ⟨rfl, rfl, rfl, Nat.lt_succ_iff.mp p.r.isLt,
    Nat.lt_succ_iff.mp p.g.isLt, Nat.lt_succ_iff.mp p.b.isLt⟩

/-- Witness for claim C8 on a one-point list. -/
theorem write_point_cloud_format_witness :
    write_point_cloud (fun _ => "1.000000") [⟨1, 2, 3, 10, 20, 30⟩] =
      specPlyFile (fun _ => "1.000000") [⟨1, 2, 3, 10, 20, 30⟩] ∧
    (specHeaderLines
        ([(⟨1, 2, 3, 10, 20, 30⟩ : Point)] : List Point).length).getD 2 "" =
      "    element vertex " ++
        toString ([(⟨1, 2, 3, 10, 20, 30⟩ : Point)] : List Point).length ∧
    ∀ p ∈ ([⟨1, 2, 3, 10, 20, 30⟩] : List Point),
      (specPointFields (fun _ => "1.000000") p).length = 7 ∧
      (specPointFields (fun _ => "1.000000") p).getD 6 "" = "0" ∧
      (specPointFields (fun _ => "1.000000") p).getD 3 "" =
        toString (p.r : ℕ) ∧
      (p.r : ℕ) ≤ 255 ∧ (p.g : ℕ) ≤ 255 ∧ (p.b : ℕ) ≤ 255 :=
  write_point_cloud_format (fun _ => "1.000000") [⟨1, 2, 3, 10, 20, 30⟩]

/-- Claim C10: the header written by write_point_cloud declares the byte
properties in order blue, green, red, alpha, header line 3 + k labelling
field k of every data line, while each data line writes the color fields
in order red, green, blue; hence for a surviving pixel with stored source
channels (B, G, R), field 3, the position the header labels blue, carries
the pixel's red channel R, and field 5, the position the header labels
red, carries the pixel's blue channel B. -/
theorem serialized_channel_swap (fmtFloat : ℚ → String)
    (rgb : List (List Pixel)) (depth : List (List ℕ)) (H W u v : ℕ)
    (scale : ℚ) (K : Mat3) (pose : Mat4) (B G R : Fin 256)
    (hr : IsGrid rgb H W) (hd : IsGrid depth H W) (hv : v < H)
    (hu : u < W) (hpos : 0 < depthPixel depth v u) (hs : 0 < scale)
    (hpx : (rgb.getD v []).getD u ⟨0, 0, 0⟩ = ⟨B, G, R⟩) :
    pointAt rgb depth scale K pose W (v * W + u) ∈
      backprojectPoints rgb depth scale K pose ∧
    write_point_cloud fmtFloat (backprojectPoints rgb depth scale K pose) =
      specPlyFile fmtFloat (backprojectPoints rgb depth scale K pose) ∧
    (specHeaderLines
        (backprojectPoints rgb depth scale K pose).length).getD 6 "" =
      "    property uchar blue" ∧
    (specHeaderLines
        (backprojectPoints rgb depth scale K pose).length).getD 8 "" =
      "    property uchar red" ∧
    (specPointFields fmtFloat
        (pointAt rgb depth scale K pose W (v * W + u))).getD 3 "" =
      toString (R : ℕ) ∧
    (specPointFields fmtFloat
        (pointAt rgb depth scale K pose W (v * W + u))).getD 5 "" =
      toString (B : ℕ) := by
  have hlen : rgb.length = H := hr.1
  have hat : rgbAt rgb (v * W + u) = ⟨B, G, R⟩ := by
    unfold rgbAt
    rw [flatten_getD_grid rgb W (fun r hm => hr.2 r hm) v u (by omega) hu]
    exact hpx
  refine ⟨pointAt_mem_backproject rgb depth scale K pose H W v u hd hv hu
      hpos hs, write_eq_specPly _ _, by simp [specHeaderLines],
    by simp [specHeaderLines], ?_, ?_⟩
  · simp [specPointFields, pointAt, hat]
  · simp [specPointFields, pointAt, hat]

/-- Witness for claim C10 at pixel (u, v) = (1, 0) of a 2 x 2 frame whose
sample there stores channels (10, 20, 30). -/
theorem serialized_channel_swap_witness :
    pointAt [[⟨0, 0, 0⟩, ⟨10, 20, 30⟩], [⟨0, 0, 0⟩, ⟨0, 0, 0⟩]]
        [[0, 1000], [2000, 0]] 1000 1 1 2 (0 * 2 + 1) ∈
      backprojectPoints [[⟨0, 0, 0⟩, ⟨10, 20, 30⟩], [⟨0, 0, 0⟩, ⟨0, 0, 0⟩]]
        [[0, 1000], [2000, 0]] 1000 1 1 ∧
    write_point_cloud (fun _ => "1.000000")
        (backprojectPoints
          [[⟨0, 0, 0⟩, ⟨10, 20, 30⟩], [⟨0, 0, 0⟩, ⟨0, 0, 0⟩]]
          [[0, 1000], [2000, 0]] 1000 1 1) =
      specPlyFile (fun _ => "1.000000")
        (backprojectPoints
          [[⟨0, 0, 0⟩, ⟨10, 20, 30⟩], [⟨0, 0, 0⟩, ⟨0, 0, 0⟩]]
          [[0, 1000], [2000, 0]] 1000 1 1) ∧
    (specHeaderLines
        (backprojectPoints
          [[⟨0, 0, 0⟩, ⟨10, 20, 30⟩], [⟨0, 0, 0⟩, ⟨0, 0, 0⟩]]
          [[0, 1000], [2000, 0]] 1000 1 1).length).getD 6 "" =
      "    property uchar blue" ∧
    (specHeaderLines
        (backprojectPoints
          [[⟨0, 0, 0⟩, ⟨10, 20, 30⟩], [⟨0, 0, 0⟩, ⟨0, 0, 0⟩]]
          [[0, 1000], [2000, 0]] 1000 1 1).length).getD 8 "" =
      "    property uchar red" ∧
    (specPointFields (fun _ => "1.000000")
        (pointAt [[⟨0, 0, 0⟩, ⟨10, 20, 30⟩], [⟨0, 0, 0⟩, ⟨0, 0, 0⟩]]
          [[0, 1000], [2000, 0]] 1000 1 1 2 (0 * 2 + 1))).getD 3 "" =
      toString ((30 : Fin 256) : ℕ) ∧
    (specPointFields (fun _ => "1.000000")
        (pointAt [[⟨0, 0, 0⟩, ⟨10, 20, 30⟩], [⟨0, 0, 0⟩, ⟨0, 0, 0⟩]]
          [[0, 1000], [2000, 0]] 1000 1 1 2 (0 * 2 + 1))).getD 5 "" =
      toString ((10 : Fin 256) : ℕ) :=
  serialized_channel_swap (fun _ => "1.000000")
    [[⟨0, 0, 0⟩, ⟨10, 20, 30⟩], [⟨0, 0, 0⟩, ⟨0, 0, 0⟩]]
    [[0, 1000], [2000, 0]] 2 2 1 0 1000 1 1 10 20 30
    (by decide) (by decide) (by decide) (by decide) (by decide)
    (by decide) (by decide)
